import Mathlib

/-!
Verification development for the airline-review dashboard repository
(`airline_dashboard.py`, `advanced_airline_dashboard.py`).

The Python data-preparation pipeline is shallowly embedded:

* pandas cells are `Option`-valued (`None`/`NaN` is `none`); Python float
  comparisons against a missing value (`NaN >= c`, `NaN <= c`) are `false`,
  modelled by `pyGE` / `pyLE`;
* Python strings are Lean `String`s; `str.strip`, `str.lower`, `sub in s`,
  `s.split(sep, 1)` and `s.count(sub)` are modelled character-wise
  (`pyStrip`, `lowerS`, `containsSub`, `splitOnce`, `pyCount`);
* a Python function that can raise returns an `Option` result, `none`
  standing for the raised exception;
* `sorted(key=..., reverse=True)` (Timsort, stable) is modelled by the
  stable insertion sort `stableSort`.

Ratings are modelled as `ℚ` (the source manipulates small decimal floats,
for which rational arithmetic agrees on every comparison used here).
-/

/-! ### Python string primitives -/

/-- Model of Python `str.lower` (character-wise ASCII lowercasing, which is
exact for every separator and keyword used by the source). -/
def lowerS (s : String) : String := ⟨s.data.map Char.toLower⟩

/-- Model of Python `str.strip`: drop whitespace from both ends. -/
def pyStrip (s : String) : String :=
  ⟨((s.data.dropWhile Char.isWhitespace).reverse.dropWhile Char.isWhitespace).reverse⟩

/-- `leadsWith pat l` is true iff `pat` occurs at the very start of `l`
(the list-level prefix test used by the substring search below). -/
def leadsWith : List Char → List Char → Bool
  | [], _ => true
  | _ :: _, [] => false
  | a :: as, b :: bs => a == b && leadsWith as bs

/-- Index of the first occurrence of `pat` in `l`, scanning left to right
(the search underlying Python `in`, `str.split` and `str.count`). -/
def findSub (pat : List Char) : List Char → Option Nat
  | [] => if leadsWith pat [] then some 0 else none
  | h :: t => if leadsWith pat (h :: t) then some 0 else (findSub pat t).map (· + 1)

/-- Model of Python `sub in s` (case-sensitive literal substring test). -/
def containsSub (s sub : String) : Bool := (findSub sub.data s.data).isSome

/-- Model of Python `s.split(sep, 1)`: `some (before, after)` when `sep`
occurs (split at the first occurrence), `none` when the split produces a
single part — in the source the `none` case makes a two-variable tuple
unpacking raise `ValueError`. -/
def splitOnce (s sep : String) : Option (String × String) :=
  (findSub sep.data s.data).map fun i =>
    (⟨s.data.take i⟩, ⟨s.data.drop (i + sep.data.length)⟩)

/-- Auxiliary scan for `pyCount`; the fuel only bounds the number of
matches (each match consumes at least one character of a nonempty needle,
so `|hay| + 1` steps always suffice). -/
def pyCountAux : Nat → List Char → List Char → Nat
  | 0, _, _ => 0
  | fuel + 1, hay, pat =>
    match findSub pat hay with
    | none => 0
    | some i => 1 + pyCountAux fuel (hay.drop (i + pat.length)) pat

/-- Model of Python `s.count(sub)`: number of non-overlapping occurrences of
`sub` in `s`, scanning left to right (`s.count('') = len(s) + 1`). -/
def pyCount (s sub : String) : Nat :=
  if sub.data.isEmpty then s.data.length + 1
  else pyCountAux (s.data.length + 1) s.data sub.data

/-- Model of Python `' '.join(l)`. -/
def joinSp (l : List String) : String := String.intercalate " " l

/-! ### Review records and missing-value comparison semantics -/

/-- One row of `Airline Review.csv`, restricted to the columns the claims
touch. A pandas `NaN`/missing cell is `none`. -/
structure Review where
  airlineName : Option String
  overallRating : Option ℚ
  seatType : Option String
  typeOfTraveller : Option String
  recommended : Option String
  reviewText : Option String
  route : Option String
  reviewDate : Option String
deriving DecidableEq

/-- Python `x >= c` on a possibly-missing float cell: every comparison with
`NaN` is false. -/
def pyGE (x : Option ℚ) (c : ℚ) : Bool :=
  match x with
  | none => false
  | some q => decide (c ≤ q)

/-- Python `x <= c` on a possibly-missing float cell. -/
def pyLE (x : Option ℚ) (c : ℚ) : Bool :=
  match x with
  | none => false
  | some q => decide (q ≤ c)

/-- pandas `series == v` on an object column: a missing cell never equals a
string value. -/
def pyEqS (x : Option String) (v : String) : Bool :=
  match x with
  | none => false
  | some s => s == v

/-- pandas `series.fillna('')` on a text cell. -/
def fillna (x : Option String) : String :=
  match x with
  | none => ""
  | some s => s

/-! ### Route parser (`parse_route`, identical in both dashboard files) -/

/-- Embedding of `parse_route` (`airline_dashboard.py` lines 62–85,
`advanced_airline_dashboard.py` lines 87–110).  The outer `Option` of the
result is the exception behaviour: `none` means the Python code raises
`ValueError` (a two-element unpacking of a one-element `split` result),
which happens in the branches where the separator was detected on the
lowercased copy but the lowercase literal is absent from the string being
split. -/
def parseRouteStr (s : String) :
    Option (Option String × Option String × Option String) :=
  if containsSub (lowerS s) " via " then
    match splitOnce s " via " with
    | none => none
    | some (mainRoute, viaPart) =>
      if containsSub (lowerS mainRoute) " to " then
        match splitOnce mainRoute " to " with
        | none => none
        | some (origin, dest) =>
          some (some (pyStrip origin), some (pyStrip dest), some (pyStrip viaPart))
      else
        some (some s, none, none)
  else if containsSub (lowerS s) " to " then
    match splitOnce s " to " with
    | some (p0, p1) => some (some (pyStrip p0), some (pyStrip p1), none)
    | none => some (some s, none, none)
  else
    some (some s, none, none)

/-- The `pd.isna` guard and the initial `str(route_str).strip()` of
`parse_route`; the rest of the body is `parseRouteStr`. -/
def parse_route (input : Option String) :
    Option (Option String × Option String × Option String) :=
  match input with
  | none => some (none, none, none)
  | some raw => parseRouteStr (pyStrip raw)

/-- The part of the (stripped) route string before the first literal
`" via "`; the whole string when the separator is absent.  This is the
`main_route` variable of the source. -/
def mainBefore (s : String) : String :=
  match splitOnce s " via " with
  | some p => p.1
  | none => s

/-! ### Satisfaction segmenter (`categorize_satisfaction`) -/

/-- Embedding of `categorize_satisfaction` (`airline_dashboard.py` lines
94–102, `advanced_airline_dashboard.py` lines 119–127).  The argument is
the raw `Overall_Rating` cell; a missing cell is Python `NaN`, which fails
every `>=` test and falls through to the `else` branch. -/
def categorize_satisfaction (rating : Option ℚ) : String :=
  if pyGE rating 8 then "Happy (8-10)"
  else if pyGE rating 6 then "Neutral (6-7)"
  else if pyGE rating 3 then "Disappointed (3-5)"
  else "Very Disappointed (1-2)"

/-- The derived `Satisfaction_Segment` column cell produced by
`df['Overall_Rating'].apply(categorize_satisfaction)`: `Series.apply`
stores the function result for every row, so the cell is `some` of the
returned label (a missing derived cell would be `none`). -/
def satisfactionSegment (rating : Option ℚ) : Option String :=
  some (categorize_satisfaction rating)

/-! ### Stable sort (model of Python `sorted(key=..., reverse=True)`) -/

/-- Insert `x` into `l`, placing it before the first element `y` with
`le x y` (so on a tie `x`, the earlier element, stays first). -/
def insSorted (le : α → α → Bool) (x : α) : List α → List α
  | [] => [x]
  | y :: ys => if le x y then x :: y :: ys else y :: insSorted le x ys

/-- Stable insertion sort; with `le a b := decide (b.2 ≤ a.2)` this computes
exactly what Python's stable `sorted(items, key=lambda x: x[1],
reverse=True)` returns. -/
def stableSort (le : α → α → Bool) (l : List α) : List α :=
  l.foldr (insSorted le) []

/-! ### Theme extractor (`extract_review_themes`, advanced dashboard) -/

/-- The `positive_themes` table (`advanced_airline_dashboard.py` lines
156–164), in declaration order. -/
def positive_themes : List (String × List String) :=
  [("Staff Service", ["crew", "staff", "service", "friendly", "helpful", "professional"]),
   ("Comfort", ["comfortable", "seat", "legroom", "spacious", "clean"]),
   ("Food & Beverage", ["food", "meal", "drink", "beverage", "delicious", "tasty"]),
   ("Efficiency", ["on time", "punctual", "quick", "fast", "efficient"]),
   ("Value", ["value", "price", "cheap", "reasonable", "worth"]),
   ("Entertainment", ["entertainment", "movie", "tv", "screen", "wifi"]),
   ("Airport Experience", ["check-in", "boarding", "airport", "lounge", "gate"])]

/-- The `negative_themes` table (`advanced_airline_dashboard.py` lines
166–174), in declaration order. -/
def negative_themes : List (String × List String) :=
  [("Poor Service", ["poor service", "rude", "unprofessional", "slow service", "bad service"]),
   ("Delays", ["delay", "late", "cancelled", "postponed", "waiting"]),
   ("Discomfort", ["uncomfortable", "cramped", "dirty", "broken", "small seat"]),
   ("Food Issues", ["bad food", "poor meal", "no food", "terrible food", "cold food"]),
   ("Booking Problems", ["booking", "reservation", "website", "customer service"]),
   ("Baggage Issues", ["baggage", "luggage", "lost", "damaged", "extra charge"]),
   ("Communication", ["information", "communication", "announcement", "language barrier"])]

/-- `themes = positive_themes if sentiment == 'positive' else negative_themes`. -/
def themeTable (sentiment : String) : List (String × List String) :=
  if sentiment == "positive" then positive_themes else negative_themes

/-- The review texts selected by sentiment: rows with rating `>= 8`
(positive) or `<= 3` (otherwise), `Review` cells with `fillna('')`,
in row order. -/
def selectedReviews (df : List Review) (sentiment : String) : List String :=
  if sentiment == "positive" then
    ((df.filter fun r => pyGE r.overallRating 8).map fun r => fillna r.reviewText)
  else
    ((df.filter fun r => pyLE r.overallRating 3).map fun r => fillna r.reviewText)

/-- `all_text = ' '.join(reviews.astype(str)).lower()`. -/
def corpus (df : List Review) (sentiment : String) : String :=
  lowerS (joinSp (selectedReviews df sentiment))

/-- The `theme_counts` mapping in insertion (= declaration) order: for each
theme, the sum of the Python `str.count` of each keyword in the corpus. -/
def themeCountList (df : List Review) (sentiment : String) : List (String × Nat) :=
  (themeTable sentiment).map fun t =>
    (t.1, (t.2.map fun kw => pyCount (corpus df sentiment) kw).sum)

/-- Embedding of `extract_review_themes` (`advanced_airline_dashboard.py`
lines 145–183): `sorted(theme_counts.items(), key=lambda x: x[1],
reverse=True)` — a stable descending sort by count of the
declaration-order count list. -/
def extract_review_themes (df : List Review) (sentiment : String) :
    List (String × Nat) :=
  stableSort (fun a b => decide (b.2 ≤ a.2)) (themeCountList df sentiment)

/-! ### Interactive filter stage -/

/-- Embedding of the advanced dashboard's `create_interactive_filters`
(`advanced_airline_dashboard.py` lines 564–607): three conditional equality
filters (skipped on `"All"`) followed by the inclusive rating-range filter.
The sidebar-summary statements only display values; the function's data
effect is the returned filtered frame. -/
def create_interactive_filters (df : List Review)
    (selAirline selSeat selTrav : String) (lo hi : ℚ) : List Review :=
  let d1 := if selAirline != "All" then
      (df.filter fun r => pyEqS r.airlineName selAirline) else df
  let d2 := if selSeat != "All" then
      (d1.filter fun r => pyEqS r.seatType selSeat) else d1
  let d3 := if selTrav != "All" then
      (d2.filter fun r => pyEqS r.typeOfTraveller selTrav) else d2
  d3.filter fun r => pyGE r.overallRating lo && pyLE r.overallRating hi

/-- The spec's description of the same stage (§4.5): one pass keeping
exactly the records that satisfy every non-`"All"` equality predicate
conjunctively and whose rating lies within `[lo, hi]`.  Stated from the
spec's words, to be compared with `create_interactive_filters`. -/
def specConjunctiveFilter (df : List Review)
    (selAirline selSeat selTrav : String) (lo hi : ℚ) : List Review :=
  df.filter fun r =>
    (selAirline == "All" || pyEqS r.airlineName selAirline) &&
    (selSeat == "All" || pyEqS r.seatType selSeat) &&
    (selTrav == "All" || pyEqS r.typeOfTraveller selTrav) &&
    (pyGE r.overallRating lo && pyLE r.overallRating hi)

/-- Model of the pandas library call `pd.to_datetime(cell, errors='coerce')`
used by the basic dashboard's filter stage on the base table's
`'Review Date'` column.  The only facts the development relies on: a
missing cell stays missing, and a value pandas cannot parse as a date
(e.g. `"n/a"`, which contains no digit) is coerced to missing (`NaT`).
Parseable cells are represented by their original string. -/
def pd_to_datetime_coerce (cell : Option String) : Option String :=
  match cell with
  | none => none
  | some s => if s.data.any Char.isDigit then some s else none

/-- Embedding of the basic dashboard's `create_interactive_filters`
(`airline_dashboard.py` lines 411–455).  Before taking a copy, the source
executes `df['Review Date'] = pd.to_datetime(df['Review Date'],
errors='coerce')`, reassigning a column of the *base* frame in place; the
result pair is (base frame after the call, filtered frame).  The date-range
widget's value is never applied as a filter in the source. -/
def create_interactive_filters_basic (df : List Review)
    (selAirline selSeat selTrav : String) : List Review × List Review :=
  let base := df.map fun r => { r with reviewDate := pd_to_datetime_coerce r.reviewDate }
  let d1 := if selAirline != "All" then
      (base.filter fun r => pyEqS r.airlineName selAirline) else base
  let d2 := if selSeat != "All" then
      (d1.filter fun r => pyEqS r.seatType selSeat) else d1
  let d3 := if selTrav != "All" then
      (d2.filter fun r => pyEqS r.typeOfTraveller selTrav) else d2
  (base, d3)

/-! ### Grouped aggregator -/

/-- One output row of the `groupby(...).agg(...)` pattern shared by the
analysis views: group key, mean rating, non-null rating count
(`Review_Count`), and recommendation rate in percent.  The display-only
`.round(2)` of the source is not modelled (it affects no claim). -/
structure AggRow where
  key : String
  avgRating : ℚ
  reviewCount : Nat
  recRate : ℚ
deriving DecidableEq

/-- The rows of `df` belonging to group `k` of the grouping column. -/
def groupRows (df : List Review) (key : Review → Option String) (k : String) :
    List Review :=
  df.filter fun r => key r == some k

/-- The distinct non-missing group keys, first occurrence first (pandas
additionally sorts the keys, but every view re-sorts by a metric, and no
claim depends on the enumeration order). -/
def dedupKeysAux : List String → List String → List String
  | _, [] => []
  | seen, x :: xs =>
    if seen.contains x then dedupKeysAux seen xs
    else x :: dedupKeysAux (x :: seen) xs

/-- Distinct non-missing values of the grouping column. -/
def groupKeysList (df : List Review) (key : Review → Option String) : List String :=
  dedupKeysAux [] (df.filterMap key)

/-- The aggregate row for one group: pandas `mean`/`count` of
`Overall_Rating` skip missing cells; the recommendation rate is the share
of all group rows whose `Recommended` cell equals `"yes"`. -/
def aggRow (df : List Review) (key : Review → Option String) (k : String) : AggRow :=
  let rows := groupRows df key k
  let ratings := rows.filterMap fun r => r.overallRating
  { key := k
    avgRating := ratings.sum / (ratings.length : ℚ)
    reviewCount := ratings.length
    recRate := ((rows.countP fun r => r.recommended == some "yes" : Nat) : ℚ)
      / (rows.length : ℚ) * 100 }

/-- The `groupby → agg → [count >= minCount] → sort_values(desc)` pattern:
the minimum-sample filter runs before the descending sort on the mean
rating (pandas `sort_values` leaves tie order unspecified; it is modelled
as stable). -/
def groupAgg (df : List Review) (key : Review → Option String) (minCount : Nat) :
    List AggRow :=
  stableSort (fun a b => decide (b.avgRating ≤ a.avgRating))
    (((groupKeysList df key).map (aggRow df key)).filter
      fun row => decide (minCount ≤ row.reviewCount))

/-- Grouping column of the airline views. -/
def airlineKey (r : Review) : Option String := r.airlineName

/-- Grouping column of the route views. -/
def routeKey (r : Review) : Option String := r.route

/-- Embedding of the airline metrics of `analyze_competitive_landscape`
(`airline_dashboard.py` lines 313–319): threshold `Review_Count >= 20`. -/
def analyze_competitive_landscape (df : List Review) : List AggRow :=
  groupAgg df airlineKey 20

/-- Embedding of the airline metrics of the advanced dashboard's
`analyze_competitive_landscape` (`advanced_airline_dashboard.py` lines
373–379): threshold `Review_Count >= 10`. -/
def analyze_competitive_landscape_adv (df : List Review) : List AggRow :=
  groupAgg df airlineKey 10

/-- Embedding of the route metrics of `analyze_geographic_performance`
(`advanced_airline_dashboard.py` lines 437–443): threshold
`Review_Count >= 5`. -/
def analyze_geographic_performance (df : List Review) : List AggRow :=
  groupAgg df routeKey 5

/-! ### Basic facts about the satisfaction segmenter -/

theorem cat_happy_iff (r : ℚ) :
    categorize_satisfaction (some r) = "Happy (8-10)" ↔ 8 ≤ r := by
  unfold categorize_satisfaction pyGE
  split_ifs with h1 h2 h3 <;> simp only [decide_eq_true_eq] at h1 <;>
    first
      | exact iff_of_true rfl h1
      | exact iff_of_false (by decide) h1

theorem cat_neutral_iff (r : ℚ) :
    categorize_satisfaction (some r) = "Neutral (6-7)" ↔ 6 ≤ r ∧ r < 8 := by
  unfold categorize_satisfaction pyGE
  split_ifs with h1 h2 h3 <;> simp only [decide_eq_true_eq] at *
  · exact iff_of_false (by decide) (fun hc => absurd h1 (not_le.mpr hc.2))
  · exact iff_of_true (by trivial) ⟨h2, not_le.mp h1⟩
  · exact iff_of_false (by decide) (fun hc => h2 hc.1)
  · exact iff_of_false (by decide) (fun hc => h2 hc.1)

theorem cat_disapp_iff (r : ℚ) :
    categorize_satisfaction (some r) = "Disappointed (3-5)" ↔ 3 ≤ r ∧ r < 6 := by
  unfold categorize_satisfaction pyGE
  split_ifs with h1 h2 h3 <;> simp only [decide_eq_true_eq] at *
  · exact iff_of_false (by decide)
      (fun hc => absurd h1 (not_le.mpr (lt_of_lt_of_le hc.2 (by norm_num))))
  · exact iff_of_false (by decide) (fun hc => absurd h2 (not_le.mpr hc.2))
  · exact iff_of_true (by trivial) ⟨h3, not_le.mp h2⟩
  · exact iff_of_false (by decide) (fun hc => h3 hc.1)

theorem cat_vd_iff (r : ℚ) :
    categorize_satisfaction (some r) = "Very Disappointed (1-2)" ↔ r < 3 := by
  unfold categorize_satisfaction pyGE
  split_ifs with h1 h2 h3 <;> simp only [decide_eq_true_eq] at *
  · exact iff_of_false (by decide)
      (fun hc => absurd h1 (not_le.mpr (lt_of_lt_of_le hc (by norm_num))))
  · exact iff_of_false (by decide)
      (fun hc => absurd h2 (not_le.mpr (lt_of_lt_of_le hc (by norm_num))))
  · exact iff_of_false (by decide) (fun hc => absurd h3 (not_le.mpr hc))
  · exact iff_of_true (by trivial) (not_le.mp h3)

/-- C2: for every numeric rating `r`, the segmenter realises the threshold
chain `r ≥ 8 → Happy`, `6 ≤ r < 8 → Neutral`, `3 ≤ r < 6 → Disappointed`,
`r < 3 → Very Disappointed` as a total non-overlapping partition, with no
clamping of out-of-range inputs: `0` resolves to Very Disappointed and `11`
to Happy. -/
theorem categorize_satisfaction_partition (r : ℚ) :
    (categorize_satisfaction (some r) = "Happy (8-10)" ↔ 8 ≤ r)
    ∧ (categorize_satisfaction (some r) = "Neutral (6-7)" ↔ 6 ≤ r ∧ r < 8)
    ∧ (categorize_satisfaction (some r) = "Disappointed (3-5)" ↔ 3 ≤ r ∧ r < 6)
    ∧ (categorize_satisfaction (some r) = "Very Disappointed (1-2)" ↔ r < 3)
    ∧ categorize_satisfaction (some 0) = "Very Disappointed (1-2)"
    ∧ categorize_satisfaction (some 11) = "Happy (8-10)" :=
  ⟨cat_happy_iff r, cat_neutral_iff r, cat_disapp_iff r, cat_vd_iff r, by rfl, by rfl⟩

/-- C3 counterexample: for a record whose overall rating is missing, the
derived `satisfaction_segment` is **not** missing — the claim that a
missing rating propagates to a missing derived segment is false on the
code. -/
theorem satisfaction_segment_missing_cex : satisfactionSegment none ≠ none := by
  decide

/-- C3 amended: a missing rating does not propagate as a missing segment;
`NaN` fails every `>=` comparison, so the `else` branch fires and the
derived cell is the concrete label `'Very Disappointed (1-2)'` — the
derived segment cell is never missing, for any rating cell. -/
theorem satisfaction_segment_missing_amended :
    satisfactionSegment none = some "Very Disappointed (1-2)"
    ∧ ∀ rating : Option ℚ, (satisfactionSegment rating).isSome = true :=
  ⟨by rfl, fun _ => rfl⟩

/-! ### Basic facts about the substring primitives -/

theorem splitOnce_eq_none_iff {s sep : String} :
    splitOnce s sep = none ↔ containsSub s sep = false := by
  unfold splitOnce containsSub
  cases findSub sep.data s.data <;> simp

theorem containsSub_of_splitOnce_some {s sep : String} {p : String × String}
    (h : splitOnce s sep = some p) : containsSub s sep = true := by
  unfold splitOnce at h
  unfold containsSub
  cases hf : findSub sep.data s.data <;> simp [hf] at h ⊢

theorem mainBefore_of_splitOnce {t : String} {p : String × String}
    (h : splitOnce t " via " = some p) : mainBefore t = p.1 := by
  simp [mainBefore, h]

theorem leadsWith_map (f : Char → Char) :
    ∀ {pat l : List Char}, leadsWith pat l = true →
      leadsWith (pat.map f) (l.map f) = true := by
  intro pat
  induction pat with
  | nil => intro l _; rfl
  | cons a as ih =>
    intro l h
    cases l with
    | nil => simp [leadsWith] at h
    | cons b bs =>
      simp only [leadsWith, Bool.and_eq_true, beq_iff_eq] at h
      simp only [List.map_cons, leadsWith, Bool.and_eq_true, beq_iff_eq]
      exact ⟨h.1 ▸ rfl, ih h.2⟩

theorem findSub_some_leads {pat : List Char} :
    ∀ {l : List Char} {i : Nat}, findSub pat l = some i →
      leadsWith pat (l.drop i) = true := by
  intro l
  induction l with
  | nil =>
    intro i h
    unfold findSub at h
    split at h
    · cases h; simpa using (by assumption : leadsWith pat [] = true)
    · cases h
  | cons x t ih =>
    intro i h
    unfold findSub at h
    split at h
    · cases h; simpa using (by assumption : leadsWith pat (x :: t) = true)
    · rcases Option.map_eq_some'.mp h with ⟨j, hj, rfl⟩
      simpa [List.drop_succ_cons] using ih hj

theorem leads_drop_isSome {pat : List Char} :
    ∀ {l : List Char} (i : Nat), leadsWith pat (l.drop i) = true →
      (findSub pat l).isSome = true := by
  intro l
  induction l with
  | nil =>
    intro i h
    simp only [List.drop_nil] at h
    simp [findSub, h]
  | cons x t ih =>
    intro i h
    cases i with
    | zero =>
      simp only [List.drop_zero] at h
      simp [findSub, h]
    | succ j =>
      simp only [List.drop_succ_cons] at h
      unfold findSub
      split
      · rfl
      · simpa using ih j h

/-- Case-insensitive detection succeeds whenever the literal separator is
present: lowering the string preserves an occurrence of an
already-lowercase separator. -/
theorem containsSub_lower {s sep : String} (hsep : lowerS sep = sep)
    (h : containsSub s sep = true) : containsSub (lowerS s) sep = true := by
  unfold containsSub at h ⊢
  rcases Option.isSome_iff_exists.mp h with ⟨i, hi⟩
  have hlead : leadsWith sep.data (s.data.drop i) = true := findSub_some_leads hi
  have hmap : leadsWith (sep.data.map Char.toLower) ((s.data.drop i).map Char.toLower) = true :=
    leadsWith_map Char.toLower hlead
  have hdata : sep.data.map Char.toLower = sep.data := congrArg String.data hsep
  rw [hdata, List.map_drop] at hmap
  exact leads_drop_isSome i hmap

/-! ### Route parser claims -/

/-- C1 counterexample: on `"A Via B"` the separator `" via "` is detected
case-insensitively, but `split(" via ", 1)` on the original-case string
yields a single part, so the two-variable unpacking raises `ValueError`
(`none` in the embedding) — the parser is not total on mixed-case
separators. -/
theorem parse_route_mixed_case_cex : parse_route (some "A Via B") = none := by
  decide

/-- C1 amended: null input yields `(null, null, null)`, and for a non-null
string the parser returns a well-defined triple **except** that it raises
`ValueError` exactly when a separator is detected on the lowercased copy
but the lowercase literal is missing from the string actually split: either
`" via "` is detected case-insensitively but not literally present, or
`" via "` is literally present and the part before its first occurrence
contains `" to "` case-insensitively but not literally. -/
theorem parse_route_totality_characterization :
    parse_route none = some (none, none, none)
    ∧ ∀ s : String,
        parse_route (some s) = none ↔
          (containsSub (lowerS (pyStrip s)) " via " = true
            ∧ (containsSub (pyStrip s) " via " = false
              ∨ (containsSub (lowerS (mainBefore (pyStrip s))) " to " = true
                ∧ containsSub (mainBefore (pyStrip s)) " to " = false))) := by
  refine ⟨rfl, fun s => ?_⟩
  show parseRouteStr (pyStrip s) = none ↔ _
  unfold parseRouteStr
  by_cases hv : containsSub (lowerS (pyStrip s)) " via " = true
  · rw [if_pos hv]
    cases hsp : splitOnce (pyStrip s) " via " with
    | none =>
      have hlit : containsSub (pyStrip s) " via " = false := splitOnce_eq_none_iff.mp hsp
      simp [hv, hlit]
    | some p =>
      obtain ⟨m, v⟩ := p
      have hlit : containsSub (pyStrip s) " via " = true := containsSub_of_splitOnce_some hsp
      have hmb : mainBefore (pyStrip s) = m := mainBefore_of_splitOnce hsp
      rw [hmb, hlit]
      dsimp only
      by_cases ht : containsSub (lowerS m) " to " = true
      · rw [if_pos ht]
        cases hsp2 : splitOnce m " to " with
        | none =>
          have htl : containsSub m " to " = false := splitOnce_eq_none_iff.mp hsp2
          simp [hv, ht, htl]
        | some q =>
          have htl : containsSub m " to " = true := containsSub_of_splitOnce_some hsp2
          simp [hv, ht, htl]
      · rw [if_neg ht]
        simp [hv, ht]
  · rw [if_neg hv]
    have hvf : containsSub (lowerS (pyStrip s)) " via " = false :=
      Bool.not_eq_true _ ▸ Bool.eq_false_iff.mpr hv
    split
    · split <;> simp [hvf]
    · simp [hvf]

/-- C4 counterexample: for `"X via Y"` (no `" to "` in the part before
`" via "`) the parser returns the **whole** trimmed string as origin, not
the portion `"X"` preceding the separator — the claim's description of the
fallback output is false on the code. -/
theorem parse_route_via_fallback_cex :
    parse_route (some "X via Y") ≠ some (some "X", none, none) := by
  decide

/-- C4 amended: for every route string that literally contains `" via "`
and whose portion before the first `" via "` does not contain `" to "`
(case-insensitively), the parser returns `(full trimmed string, null,
null)`: the via qualifier is discarded from the output fields, but the
origin is the entire trimmed route, not the portion before the
separator. -/
theorem parse_route_via_fallback (s : String)
    (hlit : containsSub (pyStrip s) " via " = true)
    (hto : containsSub (lowerS (mainBefore (pyStrip s))) " to " = false) :
    parse_route (some s) = some (some (pyStrip s), none, none) := by
  have hv : containsSub (lowerS (pyStrip s)) " via " = true :=
    containsSub_lower (by decide) hlit
  show parseRouteStr (pyStrip s) = _
  unfold parseRouteStr
  rw [if_pos hv]
  cases hsp : splitOnce (pyStrip s) " via " with
  | none =>
    rw [splitOnce_eq_none_iff.mp hsp] at hlit
    cases hlit
  | some p =>
    obtain ⟨m, v⟩ := p
    have hmb : mainBefore (pyStrip s) = m := mainBefore_of_splitOnce hsp
    rw [hmb] at hto
    simp [hto]

/-- C4 witness: the amended statement at the concrete input `"X via Y"`. -/
theorem parse_route_via_fallback_witness :
    parse_route (some "X via Y") = some (some (pyStrip "X via Y"), none, none) :=
  parse_route_via_fallback "X via Y" (by decide) (by decide)

/-- C9: route-parser result invariants — null input maps to the all-null
triple, and whenever the parser returns a triple for a non-null input the
origin is non-null, a non-null destination forces a non-null origin, and a
non-null via forces both origin and destination non-null. -/
theorem parse_route_invariants :
    parse_route none = some (none, none, none)
    ∧ ∀ (s : String) (o d v : Option String),
        parse_route (some s) = some (o, d, v) →
          o.isSome = true
          ∧ (d.isSome = true → o.isSome = true)
          ∧ (v.isSome = true → o.isSome = true ∧ d.isSome = true) := by
  refine ⟨rfl, fun s o d v h => ?_⟩
  replace h : parseRouteStr (pyStrip s) = some (o, d, v) := h
  unfold parseRouteStr at h
  split at h
  · split at h
    · cases h
    · split at h
      · split at h
        · cases h
        · simp only [Option.some.injEq, Prod.mk.injEq] at h
          obtain ⟨rfl, rfl, rfl⟩ := h
          simp
      · simp only [Option.some.injEq, Prod.mk.injEq] at h
        obtain ⟨rfl, rfl, rfl⟩ := h
        simp
  · split at h
    · split at h <;>
        (simp only [Option.some.injEq, Prod.mk.injEq] at h;
         obtain ⟨rfl, rfl, rfl⟩ := h; simp)
    · simp only [Option.some.injEq, Prod.mk.injEq] at h
      obtain ⟨rfl, rfl, rfl⟩ := h
      simp

/-- C9 witness: the invariants instantiated at `"LON to NYC via DXB"`,
whose parse is `(LON, NYC, DXB)`. -/
theorem parse_route_invariants_witness :
    (some "LON" : Option String).isSome = true
    ∧ ((some "NYC" : Option String).isSome = true →
        (some "LON" : Option String).isSome = true)
    ∧ ((some "DXB" : Option String).isSome = true →
        (some "LON" : Option String).isSome = true
        ∧ (some "NYC" : Option String).isSome = true) :=
  parse_route_invariants.2 "LON to NYC via DXB" (some "LON") (some "NYC") (some "DXB")
    (by decide)

/-! ### Stable sort lemmas -/

theorem insSorted_perm (le : α → α → Bool) (x : α) (l : List α) :
    List.Perm (insSorted le x l) (x :: l) := by
  induction l with
  | nil => exact List.Perm.refl _
  | cons y ys ih =>
    by_cases h : le x y = true
    · simp [insSorted, h]
    · simp only [insSorted, h, if_false, Bool.false_eq_true]
      exact (List.Perm.cons y ih).trans (List.Perm.swap x y ys)

theorem stableSort_perm (le : α → α → Bool) (l : List α) :
    List.Perm (stableSort le l) l := by
  induction l with
  | nil => exact List.Perm.refl _
  | cons x t ih =>
    exact (insSorted_perm le x (stableSort le t)).trans (List.Perm.cons x ih)

theorem mem_insSorted {le : α → α → Bool} {x z : α} {l : List α} :
    z ∈ insSorted le x l ↔ z = x ∨ z ∈ l := by
  rw [(insSorted_perm le x l).mem_iff, List.mem_cons]

theorem pairwise_insSorted {le : α → α → Bool}
    (htot : ∀ a b, le a b = false → le b a = true)
    (htrans : ∀ a b c, le a b = true → le b c = true → le a c = true)
    (x : α) {l : List α} (h : l.Pairwise fun a b => le a b = true) :
    (insSorted le x l).Pairwise fun a b => le a b = true := by
  induction l with
  | nil => simp [insSorted]
  | cons y ys ih =>
    rcases List.pairwise_cons.mp h with ⟨hy, hys⟩
    by_cases hxy : le x y = true
    · simp only [insSorted, hxy, if_true]
      refine List.Pairwise.cons ?_ h
      intro z hz
      rcases List.mem_cons.mp hz with rfl | hz
      · exact hxy
      · exact htrans x y z hxy (hy z hz)
    · simp only [insSorted, hxy, if_false, Bool.false_eq_true]
      refine List.Pairwise.cons ?_ (ih hys)
      intro z hz
      rcases mem_insSorted.mp hz with hzx | hz
      · subst hzx
        exact htot _ _ (Bool.eq_false_iff.mpr hxy)
      · exact hy z hz

theorem stableSort_pairwise {le : α → α → Bool}
    (htot : ∀ a b, le a b = false → le b a = true)
    (htrans : ∀ a b c, le a b = true → le b c = true → le a c = true)
    (l : List α) :
    (stableSort le l).Pairwise fun a b => le a b = true := by
  induction l with
  | nil => exact List.Pairwise.nil
  | cons x t ih => exact pairwise_insSorted htot htrans x ih

theorem sublist_insSorted (le : α → α → Bool) (x : α) (l : List α) :
    List.Sublist l (insSorted le x l) := by
  induction l with
  | nil => exact List.nil_sublist _
  | cons y ys ih =>
    by_cases h : le x y = true
    · simp only [insSorted, h, if_true]
      exact List.Sublist.cons x (List.Sublist.refl _)
    · simp only [insSorted, h, if_false, Bool.false_eq_true]
      exact List.Sublist.cons₂ y ih

theorem insSorted_pair {le : α → α → Bool} {x b : α} (hxb : le x b = true) :
    ∀ {l : List α}, b ∈ l → List.Sublist [x, b] (insSorted le x l) := by
  intro l
  induction l with
  | nil => intro h; cases h
  | cons y ys ih =>
    intro hb
    by_cases hxy : le x y = true
    · simp only [insSorted, hxy, if_true]
      exact List.Sublist.cons₂ x (List.singleton_sublist.mpr hb)
    · simp only [insSorted, hxy, if_false, Bool.false_eq_true]
      rcases List.mem_cons.mp hb with rfl | hb
      · exact absurd hxb hxy
      · exact List.Sublist.cons y (ih hb)

/-- Stability of `stableSort`: two elements that appear in order in the
input, the earlier one sorting no later than the other, appear in the same
order in the output. -/
theorem stableSort_stable {le : α → α → Bool} {a b : α} :
    ∀ {l : List α}, List.Sublist [a, b] l → le a b = true →
      List.Sublist [a, b] (stableSort le l) := by
  intro l
  induction l with
  | nil => intro h _; cases h
  | cons x t ih =>
    intro h hab
    cases h with
    | cons _ h' =>
      exact (ih h' hab).trans (sublist_insSorted le x (stableSort le t))
    | cons₂ _ h' =>
      have hb : b ∈ stableSort le t :=
        ((stableSort_perm le t).mem_iff).mpr (List.singleton_sublist.mp h')
      exact insSorted_pair hab hb

/-! ### Theme extractor claims -/

/-- C5: for every record set and sentiment flag, the extractor's output is
a permutation of the declaration-order `(theme, count)` list built from the
selected-and-lowercased corpus, it is sorted descending by count, and any
two themes listed in declaration order whose first count is `≥` the second
(in particular, ties) keep that order in the output — so the ranking is the
stable descending sort of the fixed theme table, and (the model being a
pure function) re-running it on the same inputs yields the same list. -/
theorem extract_review_themes_ranked (df : List Review) (sentiment : String) :
    List.Perm (extract_review_themes df sentiment) (themeCountList df sentiment)
    ∧ (extract_review_themes df sentiment).Pairwise (fun a b => b.2 ≤ a.2)
    ∧ ∀ a b : String × Nat,
        List.Sublist [a, b] (themeCountList df sentiment) → b.2 ≤ a.2 →
          List.Sublist [a, b] (extract_review_themes df sentiment) := by
  refine ⟨stableSort_perm _ _, ?_, ?_⟩
  · have hp := @stableSort_pairwise (String × Nat)
      (fun a b => decide (b.2 ≤ a.2))
      (fun a b h => by
        simp only [decide_eq_false_iff_not, not_le] at h
        exact decide_eq_true (le_of_lt h))
      (fun a b c h1 h2 => by
        simp only [decide_eq_true_eq] at h1 h2 ⊢
        exact le_trans h2 h1)
      (themeCountList df sentiment)
    exact hp.imp fun h => of_decide_eq_true h
  · intro a b hsub hle
    exact stableSort_stable hsub (decide_eq_true hle)

/-- C5 witness: on the empty record set every positive theme counts `0`;
the first two declared themes are tied and the stability clause places them
in declaration order in the output. -/
theorem extract_review_themes_ranked_witness :
    List.Sublist [("Staff Service", 0), ("Comfort", 0)]
      (extract_review_themes [] "positive") :=
  (extract_review_themes_ranked [] "positive").2.2
    ("Staff Service", 0) ("Comfort", 0) (by decide) (by decide)

/-- C10: the extractor always returns exactly 7 pairs — one per theme of
the sentiment's fixed table, the names being a permutation of the table's
names — and when no record matches the sentiment's rating selection the
corpus is empty, every count is `0`, and the pairs appear exactly in
declaration order. -/
theorem extract_review_themes_shape :
    (∀ (df : List Review) (sentiment : String),
        (extract_review_themes df sentiment).length = 7)
    ∧ (∀ (df : List Review) (sentiment : String),
        List.Perm ((extract_review_themes df sentiment).map Prod.fst)
          ((themeTable sentiment).map Prod.fst))
    ∧ (∀ (df : List Review) (sentiment : String),
        selectedReviews df sentiment = [] →
          extract_review_themes df sentiment =
            (themeTable sentiment).map fun t => (t.1, 0)) := by
  refine ⟨?_, ?_, ?_⟩
  · intro df s
    have hlen := (stableSort_perm (fun a b : String × Nat => decide (b.2 ≤ a.2))
      (themeCountList df s)).length_eq
    unfold extract_review_themes
    rw [hlen]
    unfold themeCountList
    rw [List.length_map]
    unfold themeTable
    by_cases hs : (s == "positive") = true
    · rw [if_pos hs]; decide
    · rw [if_neg hs]; decide
  · intro df s
    have h2 := (stableSort_perm (fun a b : String × Nat => decide (b.2 ≤ a.2))
      (themeCountList df s)).map Prod.fst
    have h3 : (themeCountList df s).map Prod.fst = (themeTable s).map Prod.fst := by
      unfold themeCountList
      rw [List.map_map]
      rfl
    unfold extract_review_themes
    rw [h3] at h2
    exact h2
  · intro df s h
    have hc : corpus df s = "" := by
      unfold corpus
      rw [h]
      rfl
    unfold extract_review_themes themeCountList
    rw [hc]
    unfold themeTable
    by_cases hs : (s == "positive") = true
    · rw [if_pos hs]; decide
    · rw [if_neg hs]; decide

/-- A record whose rating `5` matches neither the positive (`>= 8`) nor the
negative (`<= 3`) selection. -/
def reviewMid : Review :=
  ⟨some "Acme", some 5, none, none, none, some "ok flight", none, none⟩

/-- C10 witness: with only `reviewMid` present, the negative selection is
empty and the extractor returns the negative table's names, all with count
`0`, in declaration order. -/
theorem extract_review_themes_shape_witness :
    extract_review_themes [reviewMid] "negative" =
      (themeTable "negative").map fun t => (t.1, 0) :=
  extract_review_themes_shape.2.2 [reviewMid] "negative" (by decide)

/-! ### Filter-stage lemmas -/

theorem create_filters_eq_spec (df : List Review) (a s t : String) (lo hi : ℚ) :
    create_interactive_filters df a s t lo hi = specConjunctiveFilter df a s t lo hi := by
  unfold create_interactive_filters specConjunctiveFilter
  rcases Bool.eq_false_or_eq_true (a == "All") with ha | ha <;>
    rcases Bool.eq_false_or_eq_true (s == "All") with hs | hs <;>
      rcases Bool.eq_false_or_eq_true (t == "All") with ht | ht <;>
        simp only [bne, ha, hs, ht, Bool.not_true, Bool.not_false, Bool.false_eq_true,
          if_true, if_false, ite_true, ite_false, Bool.true_or, Bool.false_or,
          Bool.true_and, List.filter_filter] <;>
        first
          | rfl
          | exact List.filter_congr fun r hr => by
              simp [Bool.and_comm, Bool.and_left_comm, Bool.and_assoc]

theorem create_filters_idem (df : List Review) (a s t : String) (lo hi : ℚ) :
    create_interactive_filters (create_interactive_filters df a s t lo hi) a s t lo hi
      = create_interactive_filters df a s t lo hi := by
  rw [create_filters_eq_spec, create_filters_eq_spec]
  unfold specConjunctiveFilter
  rw [List.filter_filter]
  exact List.filter_congr fun r hr => by simp

/-! ### Interactive filter claims -/

/-- A record whose overall rating is missing. -/
def reviewNoRating : Review := ⟨some "Acme", none, none, none, none, none, none, none⟩

/-- C6 counterexample: with every selector at `"All"` and the full rating
range `[1, 10]`, a record with a missing rating is dropped (the `NaN`
comparisons of the range predicate are false), so the default filter does
**not** return the full base dataset. -/
theorem interactive_filters_default_cex :
    create_interactive_filters [reviewNoRating] "All" "All" "All" 1 10
      ≠ [reviewNoRating] := by
  decide

/-- C6 amended: the filter stage keeps exactly the records that satisfy
every non-`"All"` equality predicate conjunctively and whose rating lies in
`[lo, hi]` (first conjunct: the staged filters equal the spec's single
conjunctive pass); at the default selections it returns the records with a
non-missing rating in `[1, 10]` — the full base dataset whenever every
record carries such a rating, but not when a rating is missing or out of
range. -/
theorem interactive_filters_semantics :
    (∀ (df : List Review) (a s t : String) (lo hi : ℚ),
        create_interactive_filters df a s t lo hi = specConjunctiveFilter df a s t lo hi)
    ∧ (∀ df : List Review,
        create_interactive_filters df "All" "All" "All" 1 10
          = df.filter fun r => pyGE r.overallRating 1 && pyLE r.overallRating 10)
    ∧ (∀ df : List Review,
        (∀ r ∈ df, pyGE r.overallRating 1 = true ∧ pyLE r.overallRating 10 = true) →
          create_interactive_filters df "All" "All" "All" 1 10 = df) := by
  refine ⟨create_filters_eq_spec, ?_, ?_⟩
  · intro df
    rw [create_filters_eq_spec]
    unfold specConjunctiveFilter
    exact List.filter_congr fun r hr => by simp
  · intro df h
    have h2 : create_interactive_filters df "All" "All" "All" 1 10
        = df.filter fun r => pyGE r.overallRating 1 && pyLE r.overallRating 10 := by
      rw [create_filters_eq_spec]
      unfold specConjunctiveFilter
      exact List.filter_congr fun r hr => by simp
    rw [h2]
    refine List.filter_eq_self.mpr fun r hr => ?_
    rcases h r hr with ⟨h1, h2⟩
    simp [h1, h2]

/-- A record with every filter-relevant field present and rating `7`. -/
def reviewR7 : Review :=
  ⟨some "Acme", some 7, some "Economy Class", some "Couple Leisure", some "yes",
   none, none, none⟩

/-- C6 witness: the amended default-case statement on a one-record dataset
whose rating is present and in range. -/
theorem interactive_filters_semantics_witness :
    create_interactive_filters [reviewR7] "All" "All" "All" 1 10 = [reviewR7] :=
  interactive_filters_semantics.2.2 [reviewR7] (by decide)

/-! ### Grouped-aggregator claims -/

theorem mem_groupAgg_key {df : List Review} {key : Review → Option String}
    {minCount : Nat} {k : String}
    (h : k ∈ (groupAgg df key minCount).map AggRow.key) :
    minCount ≤ (groupRows df key k).length := by
  rcases List.mem_map.mp h with ⟨row, hrow, hkey⟩
  have hmem : row ∈ ((groupKeysList df key).map (aggRow df key)).filter
      fun row => decide (minCount ≤ row.reviewCount) :=
    ((stableSort_perm _ _).mem_iff).mp hrow
  rcases List.mem_filter.mp hmem with ⟨hmem2, hcnt⟩
  rcases List.mem_map.mp hmem2 with ⟨k2, _, hk2⟩
  subst hk2
  have hkk : (aggRow df key k2).key = k2 := rfl
  rw [hkk] at hkey
  subst hkey
  have hcnt2 : minCount ≤ (aggRow df key k2).reviewCount := of_decide_eq_true hcnt
  have hle : (aggRow df key k2).reviewCount ≤ (groupRows df key k2).length :=
    List.length_filterMap_le _ _
  exact le_trans hcnt2 hle

/-- C7: a group key appears in a view's output only if its underlying row
count meets the view's minimum sample size — 20 for the basic dashboard's
competitive landscape, 10 for the advanced one, 5 for the advanced route
view; the threshold filter runs before the descending sort in `groupAgg`,
mirroring the source order. -/
theorem min_sample_threshold (df : List Review) (k : String) :
    (k ∈ (analyze_competitive_landscape df).map AggRow.key →
        20 ≤ (groupRows df airlineKey k).length)
    ∧ (k ∈ (analyze_competitive_landscape_adv df).map AggRow.key →
        10 ≤ (groupRows df airlineKey k).length)
    ∧ (k ∈ (analyze_geographic_performance df).map AggRow.key →
        5 ≤ (groupRows df routeKey k).length) :=
  ⟨fun h => mem_groupAgg_key h, fun h => mem_groupAgg_key h,
   fun h => mem_groupAgg_key h⟩

/-- A fully-populated record used to build aggregator witnesses. -/
def reviewFull : Review :=
  ⟨some "Acme", some 8, some "Economy Class", some "Solo Leisure", some "yes",
   some "great crew", some "A to B", none⟩

/-- Twenty identical rows: one airline group and one route group of size 20. -/
def dfTwenty : List Review := List.replicate 20 reviewFull

/-- C7 witness: on `dfTwenty` the group `"Acme"` (resp. `"A to B"`) appears
in each view's output and its row count meets each threshold. -/
theorem min_sample_threshold_witness :
    20 ≤ (groupRows dfTwenty airlineKey "Acme").length
    ∧ 10 ≤ (groupRows dfTwenty airlineKey "Acme").length
    ∧ 5 ≤ (groupRows dfTwenty routeKey "A to B").length :=
  ⟨(min_sample_threshold dfTwenty "Acme").1 (by decide),
   (min_sample_threshold dfTwenty "Acme").2.1 (by decide),
   (min_sample_threshold dfTwenty "A to B").2.2 (by decide)⟩

/-! ### Purity / frame-effect claims -/

/-- A record whose `'Review Date'` cell pandas cannot parse as a date. -/
def reviewBadDate : Review :=
  ⟨some "Acme", some 5, none, none, none, none, none, some "n/a"⟩

/-- C8 counterexample: the basic dashboard's filter stage reassigns the
base table's `'Review Date'` column in place (`pd.to_datetime(...,
errors='coerce')` before `df.copy()`), so after one filter call the base
record with the unparsable date `"n/a"` has changed (its date cell became
missing) — the base table's records are not left unchanged. -/
theorem filter_stage_mutation_cex :
    (create_interactive_filters_basic [reviewBadDate] "All" "All" "All").1
      ≠ [reviewBadDate] := by
  decide

/-- C8 amended: subsetting and aggregation themselves are pure — the
advanced filter stage returns a sublist of its input and is idempotent,
re-running the aggregator on the re-filtered subset yields identical
output, and even the basic stage leaves the base table's row count
unchanged; the one deviation is the basic stage's in-place date coercion of
the base table (see the counterexample), which can change record contents
but never the row count. -/
theorem filter_aggregate_purity :
    (∀ (df : List Review) (a s t : String) (lo hi : ℚ),
        List.Sublist (create_interactive_filters df a s t lo hi) df)
    ∧ (∀ (df : List Review) (a s t : String) (lo hi : ℚ),
        create_interactive_filters (create_interactive_filters df a s t lo hi) a s t lo hi
          = create_interactive_filters df a s t lo hi)
    ∧ (∀ (df : List Review) (a s t : String),
        ((create_interactive_filters_basic df a s t).1).length = df.length)
    ∧ (∀ (df : List Review) (a s t : String) (lo hi : ℚ),
        analyze_geographic_performance
            (create_interactive_filters (create_interactive_filters df a s t lo hi) a s t lo hi)
          = analyze_geographic_performance (create_interactive_filters df a s t lo hi)) := by
  refine ⟨?_, create_filters_idem, ?_, ?_⟩
  · intro df a s t lo hi
    rw [create_filters_eq_spec]
    exact List.filter_sublist _
  · intro df a s t
    simp [create_interactive_filters_basic]
  · intro df a s t lo hi
    rw [create_filters_idem]
